import Mathlib

/-!
Verification of the lazy dataset pipeline (`flazy/datasets.py`, `fescador/mux.py`)
against its natural-language specification.  Python code is shallowly embedded:
datasets are lists of records, generators become list-producing functions,
Python exceptions become `Except`, and Python integers become `Int`.
-/

namespace Flazy

/-- Python exceptions that the embedded operations can raise.
`valueErrorEmptyDataset` stands for `ValueError('empty dataset')`
(the spec's "EmptyDatasetError"); `indexError` for `IndexError`. -/
inductive PyErr where
  | valueErrorEmptyDataset : PyErr
  | indexError : PyErr
deriving DecidableEq, Repr

/-- Python's `x or d` for integers: `0` is falsy, so it is replaced by the
default `d` (this is how `SlicedDataset.__init__` normalizes `start`, `stop`,
`step`). -/
def pyOrInt (v d : Int) : Int :=
  if v = 0 then d else v

/-- Python's `x or d` where `x` may also be `None` (`none`). -/
def pyOrOpt (v : Option Int) (d : Int) : Int :=
  match v with
  | none => d
  | some x => pyOrInt x d

/-- `SlicedDataset.__init__`: normalize `(start, stop, step)` with
`start or 0, stop or -1, step or 1`. -/
def sliceResolve (start stop step : Option Int) : Int × Int × Int :=
  (pyOrOpt start 0, pyOrOpt stop (-1), pyOrOpt step 1)

/-- The loop body of `SlicedDataset.__iter__`: walk the upstream with a
counter, break when `count == stop`, and emit the item when
`d = count - start` satisfies `d >= 0 and d % step == 0`. -/
def slicedIter (start stop step : Int) : List α → Nat → List α
  | [], _ => []
  | x :: rest, count =>
      if (count : Int) = stop then []
      else if 0 ≤ (count : Int) - start ∧ ((count : Int) - start) % step = 0 then
        x :: slicedIter start stop step rest (count + 1)
      else
        slicedIter start stop step rest (count + 1)

/-- `list(SlicedDataset(upstream, start, stop, step))` after constructor
normalization: the counter starts at 0. -/
def slicedList (start stop step : Int) (xs : List α) : List α :=
  slicedIter start stop step xs 0

/-- `Dataset.take(count)`: constructs `SlicedDataset(self, 0, count)`
(with default `step=1`) and collects it. -/
def takeList (count : Int) (xs : List α) : List α :=
  match sliceResolve (some 0) (some count) (some 1) with
  | (start, stop, step) => slicedList start stop step xs

/-- `Dataset.__getitem__` with an `int` index: `self.take(item).list()[-1]`.
`[-1]` on an empty list raises `IndexError` (not caught). -/
def getItemInt (item : Int) (xs : List α) : Except PyErr α :=
  match (takeList item xs).getLast? with
  | some v => .ok v
  | none => .error .indexError

/-- `Dataset.first`: `self.take(1).list()[0]`, catching `IndexError` and
raising `ValueError('empty dataset')` instead. -/
def firstD (xs : List α) : Except PyErr α :=
  match (takeList 1 xs).head? with
  | some v => .ok v
  | none => .error .valueErrorEmptyDataset

/-- `MappedDataset`: emits `mapper(x)` per upstream record. -/
def mapD (f : α → β) (xs : List α) : List β :=
  xs.map f

/-- `FilteredDataset`: emits `x` iff the predicate holds. -/
def filterD (p : α → Bool) (xs : List α) : List α :=
  xs.filter p

/-- The spec's slice description: "emits records at positions
`start, start+step, …` strictly before `stop`", i.e. the records whose
position `p` satisfies `start ≤ p`, `step ∣ (p - start)` and `p < stop`. -/
def sliceSpec (start stop step : Int) (xs : List α) : List α :=
  ((List.enumFrom 0 xs).filter fun q =>
    decide (start ≤ (q.1 : Int) ∧ step ∣ ((q.1 : Int) - start) ∧ (q.1 : Int) < stop)).map Prod.snd

/-- Result of iterating `RepeatedDataset`: either a finite list of records,
or an endless repetition of one cycle (`list()` would never return). -/
inductive RepeatResult (α : Type u) where
  | finite (l : List α) : RepeatResult α
  | endless (cycle : List α) : RepeatResult α
deriving DecidableEq, Repr

/-- The finite branch of `RepeatedDataset.__iter__`: drain the upstream `n`
sequential times, concatenating the outputs. -/
def repeatLoop : Nat → List α → List α
  | 0, _ => []
  | n + 1, xs => xs ++ repeatLoop n xs

/-- `RepeatedDataset.__iter__`: the loop header is
`self.times >= 0 and range(self.times) or iter(int, 1)`.  `range(times)` is
truthy only when it is nonempty, so the finite branch is taken exactly when
`times >= 0` and `times ≠ 0`; otherwise (`times` negative or zero) the loop
runs forever (`iter(int, 1)`). -/
def repeatedIter (times : Int) (xs : List α) : RepeatResult α :=
  if 0 ≤ times ∧ ¬ times = 0 then .finite (repeatLoop times.toNat xs)
  else .endless xs

/-- The spec's `repeat(times)` description: the concatenation of exactly
`times` copies of the upstream's record list. -/
def specCopies : Nat → List α → List α
  | 0, _ => []
  | n + 1, xs => xs ++ specCopies n xs

/-! `RoundRobinMux.__iter__` mutates the `iterators` list (`.remove`) while a
`for` loop iterates over it.  A Python list iterator is a bare index that is
incremented after each element is read, so removing the current element
shifts the following iterator into the current slot and the `for` loop skips
it for the rest of the round.  The embedding below models each live iterator
by its list of pending records, and the `for` loop index by the split between
`done` (slots already passed this round, still active next round) and `todo`
(slots still to be visited this round).  `rrNew` starts a round of the
`while` loop; it terminates when no iterators remain. -/

mutual

/-- One `for` step of `RoundRobinMux.__iter__` over a mutating list:
a nonempty iterator yields its head; an exhausted one is removed, which
shifts its successor into the passed region (the skip). -/
def rrGo : List (List α) → List (List α) → List α
  | done, (x :: xs) :: rest => x :: rrGo (done ++ [xs]) rest
  | done, [] :: (y :: rest2) => rrGo (done ++ [y]) rest2
  | done, [] :: [] => rrNew done
  | done, [] => rrNew done
termination_by done todo =>
  ((done ++ todo).length + ((done ++ todo).map List.length).sum, 1)
decreasing_by
  all_goals simp [List.sum_append, Prod.lex_def, List.length_append]

/-- Start of a `while` round of `RoundRobinMux.__iter__` over the current
list of live iterators (the first `for` step is inlined). -/
def rrNew : List (List α) → List α
  | [] => []
  | (x :: xs) :: rest => x :: rrGo [xs] rest
  | [] :: (y :: rest2) => rrGo [y] rest2
  | [] :: [] => []
termination_by its => (its.length + (its.map List.length).sum, 0)
decreasing_by
  all_goals simp [List.sum_append, Prod.lex_def, List.length_append]

end

/-- `list(RoundRobinMux(datasets))`: iterate all upstreams round-robin,
with Python's mutate-while-iterating `for`/`remove` semantics. -/
def roundRobinList (dss : List (List α)) : List α :=
  rrNew dss

/-- Executor instances (`flazy.executors`).  `custom` stands for any
pre-built `Executor` instance passed in by the caller. -/
inductive Exec where
  | currentThread : Exec
  | backgroundThread : Exec
  | threadPool (n : Int) : Exec
  | multiProcessing (n : Int) : Exec
  | custom (id : Nat) : Exec
deriving DecidableEq, Repr

/-- The `executor_config` keyword dictionary of `Dataset.executor`.
`executor = some (some e)` means the key is present and bound to an
`Executor` instance `e`; `executor = some none` means the key is present but
bound to a non-`Executor` value.  `extraKeys` records whether any
unrecognized key is present. -/
structure ExecConfig where
  executor : Option (Option Exec) := none
  background : Option Bool := none
  num_threads : Option Int := none
  num_processes : Option Int := none
  extraKeys : Bool := false
deriving DecidableEq, Repr

/-- `len(executor_config) > 0`: some key is present. -/
def ExecConfig.nonempty (c : ExecConfig) : Bool :=
  c.executor.isSome || c.background.isSome || c.num_threads.isSome ||
    c.num_processes.isSome || c.extraKeys

/-- `Dataset.executor(**executor_config)`.  `inh` is the executor inherited
from `self._upstream()[0].executor()` (`none` when `_upstream()` is empty, in
which case the `IndexError` handler returns `CurrentThreadExecutor`).
A `.error` models the `ValueError("Unknown executor_config:", ...)`. -/
def resolveExecutor (c : ExecConfig) (inh : Option Exec) : Except Unit Exec :=
  match c.executor with
  | some (some e) => .ok e
  | _ =>
    match c.background with
    | some true => .ok .backgroundThread
    | some false => .ok .currentThread
    | none =>
      match c.num_threads with
      | some t => .ok (.threadPool t)
      | none =>
        match c.num_processes with
        | some p => .ok (.multiProcessing p)
        | none =>
          if c.nonempty then .error ()
          else
            match inh with
            | some e => .ok e
            | none => .ok .currentThread

/-- The spec's resolution precedence, written from its words: explicit
`Executor` instance, then boolean background flag, then thread count, then
process count, then inherited from the first upstream, then
`CurrentThread`; a nonempty configuration yielding none of these is a
configuration error. -/
def precedenceSpec (c : ExecConfig) (inh : Option Exec) : Except Unit Exec :=
  match c.executor with
  | some (some e) => .ok e
  | _ =>
    match c.background with
    | some b => .ok (if b then .backgroundThread else .currentThread)
    | none =>
      match c.num_threads with
      | some t => .ok (.threadPool t)
      | none =>
        match c.num_processes with
        | some p => .ok (.multiProcessing p)
        | none =>
          if c.nonempty then .error ()
          else .ok (inh.getD .currentThread)

/-- Python record values as dispatched on by `Dataset.shape` / `Dataset.types`
(`None`, ints, floats, numpy arrays with a shape and a dtype tag, lists,
tuples, dicts; dict keys are numbered). -/
inductive PyVal where
  | noneV : PyVal
  | intV (n : Int) : PyVal
  | floatV : PyVal
  | arr (shape : List Nat) (dtype : Nat) : PyVal
  | listV (xs : List PyVal) : PyVal
  | tup (xs : List PyVal) : PyVal
  | dict (kvs : List (Nat × PyVal)) : PyVal

/-- Values returned by `Dataset.shape`: nested lists/tuples/dicts of
dimension tuples (`tuple()` for scalars). -/
inductive ShapeT where
  | dims (d : List Nat) : ShapeT
  | scalar : ShapeT
  | listS (l : List ShapeT) : ShapeT
  | tupS (l : List ShapeT) : ShapeT
  | dictS (l : List (Nat × ShapeT)) : ShapeT

/-- Values returned by `Dataset.types`: numpy dtypes (`np.int64` for ints,
`np.float32` for floats, the array's dtype tag for arrays, `None`
otherwise), nested through lists/tuples/dicts. -/
inductive TypeT where
  | dtype (d : Nat) : TypeT
  | int64 : TypeT
  | float32 : TypeT
  | noneT : TypeT
  | listT (l : List TypeT) : TypeT
  | tupT (l : List TypeT) : TypeT
  | dictT (l : List (Nat × TypeT)) : TypeT

mutual

/-- The recursion of `Dataset.shape` over one record template. -/
def shapeOf : PyVal → ShapeT
  | .listV xs => .listS (shapeOfList xs)
  | .arr s _ => .dims s
  | .tup xs => .tupS (shapeOfList xs)
  | .dict kvs => .dictS (shapeOfDict kvs)
  | _ => .scalar

def shapeOfList : List PyVal → List ShapeT
  | [] => []
  | x :: r => shapeOf x :: shapeOfList r

def shapeOfDict : List (Nat × PyVal) → List (Nat × ShapeT)
  | [] => []
  | (k, v) :: r => (k, shapeOf v) :: shapeOfDict r

end

mutual

/-- The recursion of `Dataset.types` over one record template. -/
def typesOf : PyVal → TypeT
  | .listV xs => .listT (typesOfList xs)
  | .arr _ d => .dtype d
  | .tup xs => .tupT (typesOfList xs)
  | .dict kvs => .dictT (typesOfDict kvs)
  | .intV _ => .int64
  | .floatV => .float32
  | .noneV => .noneT

def typesOfList : List PyVal → List TypeT
  | [] => []
  | x :: r => typesOf x :: typesOfList r

def typesOfDict : List (Nat × PyVal) → List (Nat × TypeT)
  | [] => []
  | (k, v) :: r => (k, typesOf v) :: typesOfDict r

end

/-- `Dataset.shape()` on a fresh node: obtains the template from
`self.first()`; the `ValueError` from an empty dataset propagates. -/
def shapeD (xs : List PyVal) : Except PyErr ShapeT :=
  (firstD xs).map shapeOf

/-- `Dataset.types()` on a fresh node: same template handling as `shape`. -/
def typesD (xs : List PyVal) : Except PyErr TypeT :=
  (firstD xs).map typesOf

/-- A cached node: `CachedDataset.__init__` stores
`self.cache = upstream.list(...)`. -/
structure CacheNode (α : Type u) where
  cache : List α
deriving DecidableEq, Repr

/-- Draining the upstream once (`upstream.list()`): returns its records and
bumps the upstream's side-effect counter. -/
def drainUpstream (xs : List α) (pulls : Nat) : List α × Nat :=
  (xs, pulls + 1)

/-- `CachedDataset.__init__`: drains the upstream exactly once. -/
def cachedInit (xs : List α) (pulls : Nat) : CacheNode α × Nat :=
  match drainUpstream xs pulls with
  | (l, p) => (⟨l⟩, p)

/-- `CachedDataset.__iter__`: `iter(self.cache)` — the upstream (and its
counter) is not touched. -/
def cachedIter (c : CacheNode α) (pulls : Nat) : List α × Nat :=
  (c.cache, pulls)

/-- Iterate a cached node `n` times, collecting each run's output and
threading the upstream side-effect counter. -/
def cachedIterN : Nat → CacheNode α → Nat → List (List α) × Nat
  | 0, _, pulls => ([], pulls)
  | n + 1, c, pulls =>
      match cachedIter c pulls with
      | (out, p1) =>
          match cachedIterN n c p1 with
          | (outs, p2) => (out :: outs, p2)

/-- The shapes of `Dataset` nodes, as needed to state what `_upstream`
returns for each class. -/
inductive DNode where
  | source : DNode
  | mapped (up : DNode) : DNode
  | transformed (up : DNode) : DNode
  | sliced (up : DNode) : DNode
  | repeated (up : DNode) : DNode
  | miniBatch (up : DNode) : DNode
  | shuffled (up : DNode) : DNode
  | prepended (up : DNode) : DNode
  | cached (up : DNode) : DNode
  | mux (ups : List DNode) : DNode

/-- The Python value returned by a `_upstream()` call: every class returns a
list of datasets, except that one returns a bare dataset. -/
inductive UpVal where
  | dsList (l : List DNode) : UpVal
  | dsNode (d : DNode) : UpVal

/-- `_upstream` per class: `InMemoryDataset` returns `[]`; the derived
single-upstream classes return `[self.upstream]`; `Mux` returns
`self.datasets`; `CachedDataset.__init__`'s class returns `self.upstream`
itself (no list). -/
def upstreamOf : DNode → UpVal
  | .source => .dsList []
  | .mapped u => .dsList [u]
  | .transformed u => .dsList [u]
  | .sliced u => .dsList [u]
  | .repeated u => .dsList [u]
  | .miniBatch u => .dsList [u]
  | .shuffled u => .dsList [u]
  | .prepended u => .dsList [u]
  | .cached u => .dsNode u
  | .mux l => .dsList l

/-- A model of the Python `random.Random` object used by `ShuffledDataset`:
a deterministic state machine with the two operations the code calls,
together with their documented contracts.  `seedFn` is `Random(seed)`;
`shuffle` permutes a list in place; `randrange s n` returns a value in
`[0, n)` and raises `ValueError` (`.error`) exactly when `n = 0`.
Records are `Option γ` so that a record that is Python `None` (`none`)
can be told apart in the drain loop's `item is not None` test. -/
structure PyRandom (β : Type) where
  sigma : Type
  seedFn : Nat → sigma
  shuffle : sigma → List β → List β × sigma
  randrange : sigma → Nat → Except Unit (Nat × sigma)
  shuffle_perm : ∀ s l, ((shuffle s l).1).Perm l
  randrange_zero : ∀ s, randrange s 0 = .error ()
  randrange_ok : ∀ s n, 0 < n → ∃ j s2, randrange s n = .ok (j, s2) ∧ j < n

/-- The middle loop of `ShuffledDataset.__iter__`: for each remaining
upstream record, draw `i = randrange(buffer_size)`, yield `buffer[i]`, and
overwrite slot `i` with the new record.  Returns the emitted records, the
final buffer, and the final generator state. -/
def shuffleStream (R : PyRandom β) :
    List β → R.sigma → List β → Nat → Except Unit (List β × List β × R.sigma)
  | [], s, buf, _ => .ok ([], buf, s)
  | item :: rest, s, buf, bsize =>
      match R.randrange s bsize with
      | .error _ => .error ()
      | .ok (i, s2) =>
          match shuffleStream R rest s2 (buf.set i item) bsize with
          | .error _ => .error ()
          | .ok (out, bufF, sF) => .ok (buf.getD i item :: out, bufF, sF)

/-- `ShuffledDataset.__iter__` from a given generator state: fill the buffer
(`buffer_size` records, or the whole upstream when `buffer_size is None`),
shuffle it in place, stream-replace against the rest of the upstream, then
drain the remaining buffer slots skipping records that are `None`. -/
def shuffledIter (R : PyRandom β) (s : R.sigma) (bufferSize : Option Nat)
    (xs : List β) (isNotNone : β → Bool) : Except Unit (List β × R.sigma) :=
  let buffer := match bufferSize with
    | some k => xs.take k
    | none => xs
  let rest := match bufferSize with
    | some k => xs.drop k
    | none => []
  let bsize := match bufferSize with
    | some k => k
    | none => buffer.length
  match R.shuffle s buffer with
  | (buf1, s1) =>
      match shuffleStream R rest s1 buf1 bsize with
      | .error _ => .error ()
      | .ok (out, bufF, sF) => .ok (out ++ bufF.filter isNotNone, sF)

/-- One full run of a `ShuffledDataset` node constructed with
`ShuffledDataset(upstream, buffer_size, seed)` (`self.random =
random.Random(seed)` happens at construction). -/
def shuffledRun (R : PyRandom β) (seed : Nat) (bufferSize : Option Nat)
    (xs : List β) (isNotNone : β → Bool) : Except Unit (List β × R.sigma) :=
  shuffledIter R (R.seedFn seed) bufferSize xs isNotNone

/-- The `item is not None` test on records embedded as `Option γ`. -/
def notNone (x : Option γ) : Bool :=
  x.isSome

/-- A concrete `PyRandom` instance (state = a counter; `shuffle` reverses,
`randrange` reduces the counter mod `n`), used to evaluate the embedded
shuffle on concrete inputs. -/
@[reducible] def simpleRandom : PyRandom (Option Nat) where
  sigma := Nat
  seedFn := id
  shuffle := fun s l => (l.reverse, s + 1)
  randrange := fun s n => if n = 0 then .error () else .ok (s % n, s + 1)
  shuffle_perm := fun _ l => l.reverse_perm
  randrange_zero := fun _ => rfl
  randrange_ok := fun s n hn => by
    refine ⟨s % n, s + 1, ?_, Nat.mod_lt _ hn⟩
    simp [Nat.pos_iff_ne_zero.mp hn]

/-! Helper lemmas. -/

theorem le_fst_of_mem_enumFrom {q : Nat × α} :
    ∀ {c : Nat} {l : List α}, q ∈ List.enumFrom c l → c ≤ q.1 := by
  intro c l
  induction l generalizing c with
  | nil => intro h; simp [List.enumFrom] at h
  | cons x rest ih =>
      intro h
      rw [List.enumFrom] at h
      rcases List.mem_cons.mp h with h | h
      · subst h; exact Nat.le_refl c
      · exact Nat.le_of_succ_le (ih h)

theorem slicedIter_take (n : Int) (xs : List α) :
    ∀ (count : Nat), (count : Int) ≤ n →
      slicedIter 0 n 1 xs count = xs.take (n - count).toNat := by
  induction xs with
  | nil => intro count _; simp [slicedIter]
  | cons x rest ih =>
      intro count h
      by_cases hc : (count : Int) = n
      · have h0 : (n - (count : Int)).toNat = 0 := by omega
        simp [slicedIter, hc, h0]
      · have hlt : (count : Int) < n := lt_of_le_of_ne h hc
        have h1 : (n - (count : Int)).toNat = (n - ((count : Int) + 1)).toNat + 1 := by
          omega
        rw [slicedIter]
        simp only [hc, if_false, Int.sub_zero, Int.emod_one, and_true]
        rw [if_pos (Int.ofNat_nonneg count)]
        rw [ih (count + 1) (by push_cast; omega)]
        push_cast
        rw [h1, List.take_succ_cons]

theorem slicedIter_spec (start stop step : Int) (xs : List α) :
    ∀ (count : Nat), (count : Int) ≤ stop →
      slicedIter start stop step xs count =
        ((List.enumFrom count xs).filter fun q =>
          decide (start ≤ (q.1 : Int) ∧ step ∣ ((q.1 : Int) - start) ∧
            (q.1 : Int) < stop)).map Prod.snd := by
  induction xs with
  | nil => intro count _; simp [slicedIter, List.enumFrom]
  | cons x rest ih =>
      intro count h
      rw [List.enumFrom]
      by_cases hc : (count : Int) = stop
      · have hhead : ¬ (start ≤ (count : Int) ∧ step ∣ ((count : Int) - start) ∧
            (count : Int) < stop) := by
          intro hcon
          rw [hc] at hcon
          exact absurd hcon.2.2 (lt_irrefl _)
        rw [slicedIter, if_pos hc, List.filter_cons_of_neg (by simpa using hhead)]
        rw [List.filter_eq_nil_iff.mpr ?_, List.map_nil]
        intro q hq
        have hle : count + 1 ≤ q.1 := le_fst_of_mem_enumFrom hq
        simp only [decide_eq_true_eq]
        intro hcon
        exact absurd hcon.2.2 (by omega)
      · have hlt : (count : Int) < stop := lt_of_le_of_ne h hc
        rw [slicedIter, if_neg hc]
        by_cases he : 0 ≤ (count : Int) - start ∧ ((count : Int) - start) % step = 0
        · have hpred : start ≤ (count : Int) ∧ step ∣ ((count : Int) - start) ∧
              (count : Int) < stop :=
            ⟨by omega, Int.dvd_of_emod_eq_zero he.2, hlt⟩
          rw [if_pos he, List.filter_cons_of_pos (by simpa using hpred)]
          rw [List.map_cons, ih (count + 1) (by push_cast; omega)]
        · have hpred : ¬ (start ≤ (count : Int) ∧ step ∣ ((count : Int) - start) ∧
              (count : Int) < stop) := by
            intro hcon
            exact he ⟨by omega, Int.emod_eq_zero_of_dvd hcon.2.1⟩
          rw [if_neg he, List.filter_cons_of_neg (by simpa using hpred)]
          rw [ih (count + 1) (by push_cast; omega)]

theorem takeList_eq_take (n : Int) (hn : 1 ≤ n) (xs : List α) :
    takeList n xs = xs.take n.toNat := by
  have hne : ¬ n = 0 := by omega
  have h := slicedIter_take n xs 0 (by omega)
  simpa [takeList, sliceResolve, pyOrOpt, pyOrInt, hne, slicedList] using h

theorem repeatLoop_eq_specCopies (n : Nat) (xs : List α) :
    repeatLoop n xs = specCopies n xs := by
  induction n with
  | zero => rfl
  | succ m ih => simp [repeatLoop, specCopies, ih]

/-! Claim theorems. -/

/-- C1 (amended): for `n ≥ 1`, `D.take(n).list()` is the first
`min(n, len(D.list()))` elements of `D.list()`, and a slice with
`start, step ≥ 1 ≤ stop` emits exactly the records at positions
`start, start + step, …` strictly before `stop`.  (As written the claim
fails at `n = 0`: `stop or -1` treats a stop of `0` as "unbounded".) -/
theorem take_slice_correct (n start stop step : Int) (xs : List α)
    (hn : 1 ≤ n) (_hstep : 1 ≤ step) (hstop : 1 ≤ stop) :
    takeList n xs = xs.take n.toNat ∧
      slicedList start stop step xs = sliceSpec start stop step xs := by
  refine ⟨takeList_eq_take n hn xs, ?_⟩
  have h := slicedIter_spec start stop step xs 0 (by omega)
  simpa [slicedList, sliceSpec] using h

theorem take_slice_correct_witness :
    takeList 2 [10, 20, 30] = [10, 20] ∧
      slicedList 1 5 2 [0, 1, 2, 3, 4, 5, 6, 7] = sliceSpec 1 5 2 [0, 1, 2, 3, 4, 5, 6, 7] := by
  have h1 := (take_slice_correct 2 1 5 2 [10, 20, 30] (by decide) (by decide) (by decide)).1
  have h2 := (take_slice_correct 2 1 5 2 [0, 1, 2, 3, 4, 5, 6, 7]
    (by decide) (by decide) (by decide)).2
  exact ⟨by simpa using h1, h2⟩

/-- C1 counterexample: `D.take(0).list()` returns the whole dataset, not the
empty prefix, because `SlicedDataset.__init__` turns the stop value `0` into
`-1` ("unbounded") via `stop or -1`. -/
theorem take_zero_counterexample :
    takeList 0 [10, 20] = [10, 20] ∧ ([10, 20] : List Nat) ≠ [] := by
  exact ⟨rfl, by decide⟩

/-- C10 (code bug): `D[i]` is implemented as `self.take(item).list()[-1]`,
which at `i = 0` returns the last record of the whole dataset (`take(0)` is
unbounded) instead of `D.list()[0]`; every `i ≥ 1` returns `D.list()[i-1]`. -/
theorem getitem_counterexample :
    getItemInt 0 [10, 20] = .ok 20 ∧
      (Except.ok 20 : Except PyErr Nat) ≠ .ok 10 := by
  exact ⟨rfl, by simp⟩

/-- C6 (amended): for `times ≥ 1`, `repeat(times).list()` is the
concatenation of exactly `times` copies of the upstream's records; for
`times ≤ 0` — including `times = 0`, since `range(0)` is falsy in the loop
header `self.times >= 0 and range(self.times) or iter(int, 1)` — iteration
re-drains the upstream forever. -/
theorem repeat_correct (times : Int) (xs : List α) :
    (1 ≤ times → repeatedIter times xs = .finite (specCopies times.toNat xs)) ∧
      (times ≤ 0 → repeatedIter times xs = .endless xs) := by
  constructor
  · intro h
    rw [repeatedIter, if_pos ⟨by omega, by omega⟩, repeatLoop_eq_specCopies]
  · intro h
    rw [repeatedIter, if_neg (by omega)]

theorem repeat_correct_witness :
    repeatedIter 2 [1] = .finite [1, 1] ∧ repeatedIter (-1) [1] = .endless [1] :=
  ⟨(repeat_correct 2 [1]).1 (by decide), (repeat_correct (-1) [1]).2 (by decide)⟩

/-- C6 counterexample: `repeat(0)` does not produce the empty concatenation —
the loop header's `and`/`or` chain makes it loop forever over the upstream. -/
theorem repeat_zero_counterexample :
    repeatedIter 0 [5] = .endless [5] ∧
      RepeatResult.endless [5] ≠ RepeatResult.finite ([] : List Nat) := by
  exact ⟨rfl, by decide⟩

/-- C7 (amended): on a zero-record dataset, `first` and shape/type inference
raise `ValueError('empty dataset')` (the spec's EmptyDatasetError), but
integer indexing raises an uncaught `IndexError` instead; lazy operators
(`map`, `filter`, `take`) never eagerly fail on an empty dataset. -/
theorem empty_dataset_errors (i n : Int) (f : PyVal → PyVal) (p : PyVal → Bool) :
    firstD ([] : List PyVal) = .error .valueErrorEmptyDataset ∧
      shapeD [] = .error .valueErrorEmptyDataset ∧
      typesD [] = .error .valueErrorEmptyDataset ∧
      getItemInt i ([] : List PyVal) = .error .indexError ∧
      mapD f [] = [] ∧ filterD p [] = [] ∧ takeList n ([] : List PyVal) = [] := by
  exact ⟨rfl, rfl, rfl, rfl, rfl, rfl, rfl⟩

/-- C7 counterexample: indexing an empty dataset raises `IndexError`
(`list()[-1]` is not guarded), not the EmptyDatasetError the claim names. -/
theorem empty_dataset_indexing_counterexample :
    getItemInt 0 ([] : List PyVal) = .error .indexError ∧
      PyErr.indexError ≠ PyErr.valueErrorEmptyDataset := by
  exact ⟨rfl, by decide⟩

/-- C2 (code bug): `RoundRobinMux` over upstreams of lengths `[3, 1, 2]`
emits `d0[0], d1[0], d2[0], d0[1], d0[2], d2[1]` — not the fair round-robin
order `…, d2[1], d0[2]` the spec states.  `iterators.remove(iterator)`
mutates the list the `for` loop is walking, so the iterator after a removed
one is skipped for the rest of that round. -/
theorem roundrobin_counterexample :
    roundRobinList [[0, 1, 2], [10], [20, 21]] = [0, 10, 20, 1, 2, 21] ∧
      ([0, 10, 20, 1, 2, 21] : List Nat) ≠ [0, 10, 20, 1, 21, 2] := by
  constructor
  · simp [roundRobinList, rrNew, rrGo]
  · decide

/-- C3: with a fixed seed, two runs of a `ShuffledDataset` node with
unbounded buffer over the same upstream produce identical output — each run
constructs `random.Random(seed)`, and iteration is a deterministic function
of the generator state and the upstream records. -/
theorem shuffle_seed_deterministic (R : PyRandom β) (seed : Nat)
    (xs : List β) (isN : β → Bool) (r1 r2 : Except Unit (List β × R.sigma))
    (h1 : r1 = shuffledRun R seed none xs isN)
    (h2 : r2 = shuffledRun R seed none xs isN) : r1 = r2 := by
  rw [h1, h2]

theorem shuffle_seed_deterministic_witness :
    shuffledRun simpleRandom 0 none [some 1, some 2] notNone =
      shuffledRun simpleRandom 0 none [some 1, some 2] notNone :=
  shuffle_seed_deterministic simpleRandom 0 [some 1, some 2] notNone _ _ rfl rfl

theorem getD_cons_set_perm {l : List β} {i : Nat} (h : i < l.length) (d : β) :
    (l.getD i d :: l.set i d).Perm (d :: l) := by
  have hl : l = l.take i ++ l[i] :: l.drop (i + 1) := by
    conv_lhs => rw [← List.take_append_drop i l]
    rw [← List.getElem_cons_drop l i h]
  rw [List.getD_eq_getElem l d h, List.set_eq_take_cons_drop d h]
  refine List.Perm.trans (List.Perm.cons _ List.perm_middle) ?_
  refine List.Perm.trans (List.Perm.swap _ _ _) ?_
  refine List.Perm.cons _ ?_
  conv_rhs => rw [hl]
  exact List.perm_middle.symm

theorem shuffleStream_spec (R : PyRandom β) (k : Nat) (hk : 0 < k) :
    ∀ (rest : List β) (s : R.sigma) (buf : List β), buf.length = k →
      ∃ out bufF sF, shuffleStream R rest s buf k = .ok (out, bufF, sF) ∧
        (out ++ bufF).Perm (buf ++ rest) ∧ bufF.length = k := by
  intro rest
  induction rest with
  | nil => exact fun s buf hb => ⟨[], buf, s, rfl, by simp, hb⟩
  | cons item rest ih =>
      intro s buf hb
      obtain ⟨j, s2, hr, hj⟩ := R.randrange_ok s k hk
      obtain ⟨out, bufF, sF, hs, hperm, hlen⟩ := ih s2 (buf.set j item) (by simp [hb])
      have hjlen : j < buf.length := by omega
      refine ⟨buf.getD j item :: out, bufF, sF, ?_, ?_, hlen⟩
      · simp [shuffleStream, hr, hs]
      · refine List.Perm.trans (List.Perm.cons _ hperm) ?_
        have step1 : (buf.getD j item :: (buf.set j item ++ rest)).Perm
            ((item :: buf) ++ rest) :=
          (getD_cons_set_perm hjlen item).append_right rest
        exact List.Perm.trans step1 List.perm_middle.symm

/-- C4 (amended): with `1 ≤ k < N` and an upstream of `N` records none of
which is Python `None`, a `ShuffledDataset(bufferSize=k)` iteration succeeds,
its output is a permutation of the input containing every record exactly
once, and the buffer holds at most `k` records at every point of the
streaming phase.  (As written the claim fails when records can be `None` —
the drain loop's `if item is not None` drops them — and when `k = 0`,
where `randrange(0)` raises `ValueError`.) -/
theorem shuffled_bounded_perm (R : PyRandom (Option γ)) (s : R.sigma)
    (xs : List (Option γ)) (k : Nat) (hk : 1 ≤ k) (hkN : k < xs.length)
    (hsome : ∀ x ∈ xs, x.isSome) :
    (∃ out sF, shuffledIter R s (some k) xs notNone = .ok (out, sF) ∧
      out.Perm xs) ∧
    (xs.take k).length ≤ k ∧
    (∀ m, ∃ o b s2,
      shuffleStream R ((xs.drop k).take m) ((R.shuffle s (xs.take k)).2)
        ((R.shuffle s (xs.take k)).1) k = .ok (o, b, s2) ∧ b.length ≤ k) := by
  have hbl : (xs.take k).length = k := by
    rw [List.length_take]
    omega
  have hperm1 : ((R.shuffle s (xs.take k)).1).Perm (xs.take k) :=
    R.shuffle_perm s (xs.take k)
  have hbuf1len : ((R.shuffle s (xs.take k)).1).length = k := by
    rw [hperm1.length_eq, hbl]
  refine ⟨?_, le_of_eq hbl, ?_⟩
  · obtain ⟨out0, bufF, sF, hs, hp, _⟩ :=
      shuffleStream_spec R k hk (xs.drop k) (R.shuffle s (xs.take k)).2
        (R.shuffle s (xs.take k)).1 hbuf1len
    have hxs : ((R.shuffle s (xs.take k)).1 ++ xs.drop k).Perm xs := by
      refine List.Perm.trans (hperm1.append_right _) ?_
      rw [List.take_append_drop]
    have hallsome : ∀ x ∈ bufF, notNone x = true := by
      intro x hx
      have hx2 : x ∈ out0 ++ bufF := List.mem_append_right _ hx
      have hx3 : x ∈ xs := (hp.trans hxs).mem_iff.mp hx2
      simpa [notNone] using hsome x hx3
    have hfilter : bufF.filter notNone = bufF := List.filter_eq_self.mpr hallsome
    refine ⟨out0 ++ bufF, sF, ?_, hp.trans hxs⟩
    simp only [shuffledIter]
    rw [hs]
    simp [hfilter]
  · intro m
    obtain ⟨o, b, s2, hso, _, hbl2⟩ :=
      shuffleStream_spec R k hk ((xs.drop k).take m) (R.shuffle s (xs.take k)).2
        (R.shuffle s (xs.take k)).1 hbuf1len
    exact ⟨o, b, s2, hso, le_of_eq hbl2⟩

theorem shuffled_bounded_perm_witness :
    (∃ out sF,
      shuffledIter simpleRandom 0 (some 1) [some 1, some 2, some 3] notNone =
        .ok (out, sF) ∧ out.Perm [some 1, some 2, some 3]) ∧
    ([some 1, some 2, some 3].take 1).length ≤ 1 ∧
    (∀ m, ∃ o b s2,
      shuffleStream simpleRandom (([some 1, some 2, some 3].drop 1).take m)
        ((simpleRandom.shuffle 0 ([some 1, some 2, some 3].take 1)).2)
        ((simpleRandom.shuffle 0 ([some 1, some 2, some 3].take 1)).1) 1 =
          .ok (o, b, s2) ∧ b.length ≤ 1) :=
  shuffled_bounded_perm simpleRandom 0 [some 1, some 2, some 3] 1
    (by decide) (by decide) (by decide)

/-- C4 counterexample: with `bufferSize = 1 < N = 2` over `[10, None]`, the
drain loop's `if item is not None` drops the `None` left in the buffer, so
the output `[10]` is not a permutation of the input.  (At this input the
behaviour does not depend on the generator: shuffling a one-record buffer is
the identity permutation and `randrange(1)` can only return `0`.) -/
theorem shuffle_drops_none_counterexample :
    shuffledRun simpleRandom 0 (some 1) [some 10, none] notNone =
      .ok ([some 10], 2) ∧
    ¬ ([some 10] : List (Option Nat)).Perm [some 10, none] := by
  refine ⟨rfl, fun h => ?_⟩
  have hlen := h.length_eq
  simp at hlen

/-- C5 (amended): `Dataset.executor` resolves an executor with the stated
precedence — explicit `Executor` instance, then the `background` flag, then
`num_threads`, then `num_processes`, then the first upstream's executor,
then `CurrentThread` — but a configuration combining several recognized
hints is resolved silently by that precedence; a `ValueError` is raised (at
resolution time, i.e. when iteration starts, not at construction) only when
the configuration is nonempty yet matches no recognized usable hint. -/
theorem executor_precedence (c : ExecConfig) (inh : Option Exec) :
    resolveExecutor c inh = precedenceSpec c inh := by
  obtain ⟨eo, b, t, p, x⟩ := c
  rcases eo with _ | (_ | e) <;> rcases b with _ | (_ | _) <;>
    rcases t with _ | t <;> rcases p with _ | p <;> cases x <;>
    rcases inh with _ | u <;> rfl

/-- C5 counterexample: `background=True` together with `num_threads=2` is
not rejected — the code silently returns the background-thread executor. -/
theorem executor_conflict_counterexample :
    resolveExecutor { background := some true, num_threads := some 2 } none =
      .ok .backgroundThread ∧
    (Except.ok Exec.backgroundThread : Except Unit Exec) ≠ .error () := by
  exact ⟨rfl, by simp⟩

theorem cachedIterN_replicate (n : Nat) (c : CacheNode α) (p : Nat) :
    cachedIterN n c p = (List.replicate n c.cache, p) := by
  induction n generalizing p with
  | zero => rfl
  | succ m ih => simp [cachedIterN, cachedIter, List.replicate, ih]

/-- C8: `CachedDataset` drains its upstream exactly once, at construction;
iterating the cached node any number of times replays the same materialized
sequence and never touches the upstream again, so the upstream's
side-effect counter ends at exactly 1. -/
theorem cache_drains_once (xs : List α) (n : Nat) :
    cachedIterN n (cachedInit xs 0).1 (cachedInit xs 0).2 =
      (List.replicate n xs, 1) := by
  rw [cachedIterN_replicate]
  rfl

/-- C9 (code bug): `CachedDataset._upstream` returns `self.upstream` — the
bare dataset — instead of a list containing it, contradicting the
documented contract of `Dataset._upstream` ("subclasses should return a
list of the upstream datasets"). -/
theorem cached_upstream_counterexample :
    upstreamOf (DNode.cached DNode.source) = UpVal.dsNode DNode.source ∧
      UpVal.dsNode DNode.source ≠ UpVal.dsList [DNode.source] :=
  ⟨rfl, fun h => UpVal.noConfusion h⟩

end Flazy
